import Mathlib

/-!
Verification of the openclaw-plugin-rambly state-synchronization, proximity-filtering
and follow-mode engine (src/manager.ts), shallowly embedded in Lean.

Conventions of the embedding:
- JS numbers are modelled as rationals (`ℚ`) for state and event payloads; the only
  genuinely irrational quantities (Euclidean distances, the follow-step coordinates,
  the bearing angle) are modelled in `ℝ`.
- Every distance comparison in the source has the shape `distance(a,b) ⊲ r` with
  `distance = Math.sqrt(...)`.  We embed such a comparison as the equivalent decidable
  comparison of the squared distance (`distLEb`, `distLTb`, `distGTb`) and prove once,
  in the bridge lemmas below, that each boolean agrees with the real comparison
  `Real.sqrt ... ⊲ r` for every rational `r` (including negative `r`).
- JS `Map` (insertion-ordered, unique keys) is modelled as an association list of
  `PeerInfo` with `peersSet` / `peersGet` / `peersDelete` mirroring `set`/`get`/`delete`.
- `Math.round` is JS round-half-up, identical to Mathlib's `round : ℝ → ℤ`.
-/

/-- A 2-D position `{x, y}` (manager.ts / types.ts `{x: number; y: number}`). -/
structure Pos where
  x : ℚ
  y : ℚ
deriving DecidableEq

/-- Squared Euclidean distance, over the rationals. -/
def distSq (a b : Pos) : ℚ :=
  (a.x - b.x) ^ 2 + (a.y - b.y) ^ 2

/-- RamblyManager.distance (manager.ts lines 140-142):
`Math.sqrt((a.x - b.x) ** 2 + (a.y - b.y) ** 2)`. -/
noncomputable def distance (a b : Pos) : ℝ :=
  Real.sqrt (((a.x : ℝ) - (b.x : ℝ)) ^ 2 + ((a.y : ℝ) - (b.y : ℝ)) ^ 2)

/-- Decidable form of `distance a b <= r` (used for the source's `dist <= followDistance`
and the complement of `dist > hearingRadius`). -/
def distLEb (a b : Pos) (r : ℚ) : Bool :=
  decide (0 ≤ r) && decide (distSq a b ≤ r ^ 2)

/-- Decidable form of `distance a b < r` (used for the source's
`this.distance(this.state.position, crumbs[0]) < this.config.followStepSize`). -/
def distLTb (a b : Pos) (r : ℚ) : Bool :=
  decide (0 < r) && decide (distSq a b < r ^ 2)

/-- Decidable form of `distance a b > r` (used for the source's
`this.distance(lastCrumb, ev.position) > 5` and `dist > this.config.hearingRadius`). -/
def distGTb (a b : Pos) (r : ℚ) : Bool :=
  decide (r < 0) || decide (r ^ 2 < distSq a b)

/-- A peer as stored in the room roster (types.ts `PeerInfo`). -/
structure PeerInfo where
  id : String
  name : String
  position : Option Pos
deriving DecidableEq

/-- One stored transcript entry (manager.ts `pendingTranscripts` element
`{name, text, time}`; `time` is the `Date.now()` wall-clock value at handling time,
threaded into the model as an explicit parameter). -/
structure TranscriptEntry where
  name : String
  text : String
  time : ℤ
deriving DecidableEq

/-- The single mutable engine snapshot (types.ts `RamblyState`, plus the
`followInterval` timer handle of RamblyManager modelled as an "is the recurring
stepper timer currently scheduled" flag, and the `agentName` / `pendingTranscripts`
fields that manager.ts adds to the state object). -/
structure RamblyState where
  connected : Bool
  room : Option String
  peerId : Option String
  agentName : Option String
  position : Pos
  peers : List PeerInfo
  followTarget : Option String
  followBreadcrumbs : List Pos
  pendingTranscripts : List TranscriptEntry
  followInterval : Bool
deriving DecidableEq

/-- Plugin configuration (types.ts `RamblyPluginConfig`). -/
structure RamblyPluginConfig where
  hearingRadius : ℚ
  followDistance : ℚ
  followStepSize : ℚ
  daemonCommand : String
  defaultName : String
  voice : String
deriving DecidableEq

/-- types.ts `DEFAULT_CONFIG`. -/
def DEFAULT_CONFIG : RamblyPluginConfig :=
  { hearingRadius := 150
    followDistance := 40
    followStepSize := 20
    daemonCommand := "npx tsx /home/dguttman/play/web/rambly/.worktrees/cli-client/cli/bin/rambly-client.ts"
    defaultName := "Agent"
    voice := "nova" }

/-- The state the RamblyManager constructor builds (manager.ts lines 20-30),
with no timer scheduled. -/
def initialState : RamblyState :=
  { connected := false
    room := none
    peerId := none
    agentName := none
    position := ⟨250, 230⟩
    peers := []
    followTarget := none
    followBreadcrumbs := []
    pendingTranscripts := []
    followInterval := false }

/-- Outbound command written to the subordinate process (types.ts `DaemonCommand`;
`move` carries the optional `theta` bearing and `step` animation flag that the
follow stepper adds). -/
inductive DaemonCommand where
  | speak (text : String)
  | move (x y : ℚ) (theta : Option ℝ) (step : Option ℕ)
  | peersReq
  | statusReq
  | leaveCmd

/-- Inbound event parsed from the subordinate process (types.ts `DaemonEvent`). -/
inductive DaemonEvent where
  | joined (room peerId : String)
  | transcript (evFrom evName evText : String) (position : Option Pos)
  | peer_join (id name : String) (position : Option Pos)
  | peer_leave (id : String) (name : Option String)
  | peer_moved (id name : String) (position : Option Pos)
  | spoke (text : Option String)
  | moved (x y : ℚ)
  | peersEv (peers : List PeerInfo)
  | statusEv (room : String) (position : Pos) (peers : List PeerInfo)
  | leftEv
  | errorEv (message : String)
deriving DecidableEq

/-- Observable side effects of one operation: a command sent to the daemon, a
subordinate-process spawn, a best-effort daemon kill, or an invocation of the
registered transcript callback (manager.ts `onTranscript`). -/
inductive Eff where
  | cmd (c : DaemonCommand)
  | spawn (room name command voice : String)
  | kill
  | notify (evFrom evName evText : String) (dist : ℤ)

/-- JS `Map.get(id)`: the unique entry with this id, if present. -/
def peersGet (peers : List PeerInfo) (id : String) : Option PeerInfo :=
  peers.find? (fun q => q.id == id)

/-- JS `Map.set(id, p)` for insertion-ordered maps: replace in place if the key
exists, otherwise append. -/
def peersSet (peers : List PeerInfo) (p : PeerInfo) : List PeerInfo :=
  if peers.any (fun q => q.id == p.id) then
    peers.map (fun q => if q.id == p.id then p else q)
  else
    peers ++ [p]

/-- JS `Map.delete(id)`. -/
def peersDelete (peers : List PeerInfo) (id : String) : List PeerInfo :=
  peers.filter (fun q => !(q.id == id))

/-- RamblyManager.findPeerByName (manager.ts lines 144-149): first peer, in
insertion order, whose name matches case-insensitively. -/
def findPeerByName (peers : List PeerInfo) (name : String) : Option PeerInfo :=
  peers.find? (fun p => p.name.toLower == name.toLower)

/-- Append a breadcrumb and evict the oldest if the trail exceeds 100 points
(manager.ts `crumbs.push(...); if (crumbs.length > 100) crumbs.shift();`). -/
def pushCrumb (crumbs : List Pos) (p : Pos) : List Pos :=
  if 100 < (crumbs ++ [p]).length then (crumbs ++ [p]).drop 1 else crumbs ++ [p]

/-- The breadcrumb recording policy, shared by the `peer_moved` handler
(manager.ts lines 60-65) and the stepper tick (lines 299-305): append only if the
new point is more than 5 units from the current tail. -/
def recordCrumb (crumbs : List Pos) (p : Pos) : List Pos :=
  match crumbs.getLast? with
  | none => pushCrumb crumbs p
  | some lastCrumb => if distGTb lastCrumb p 5 then pushCrumb crumbs p else crumbs

/-- RamblyManager.stopFollow (manager.ts lines 352-356): clear target, trail and
the stepper timer. -/
def stopFollowS (s : RamblyState) : RamblyState :=
  { s with followTarget := none, followBreadcrumbs := [], followInterval := false }

/-- RamblyManager.cleanup (manager.ts lines 358-364): stopFollow, then clear the
connection fields and the peer map.  Note that `agentName`, `position` and
`pendingTranscripts` are NOT touched by the source. -/
def cleanupS (s : RamblyState) : RamblyState :=
  { stopFollowS s with connected := false, room := none, peerId := none, peers := [] }

/-- Append a transcript entry and evict the oldest past 10 (manager.ts lines 127-135:
`push(...); if (pendingTranscripts.length > 10) shift();`). -/
def pushTranscript (ts : List TranscriptEntry) (t : TranscriptEntry) : List TranscriptEntry :=
  if 10 < (ts ++ [t]).length then (ts ++ [t]).drop 1 else ts ++ [t]

/-- RamblyManager.handleTranscript (manager.ts lines 111-138).  The source guard
`this.state.agentName && ...` treats the empty string as unset (JS truthiness);
`Math.round(dist)` on the accepted distance is Mathlib `round`.  Returns the new
state and the callback invocation, if any. -/
noncomputable def handleTranscript (cfg : RamblyPluginConfig) (s : RamblyState)
    (evFrom evName evText : String) (evPos : Option Pos) (now : ℤ) :
    RamblyState × Option Eff :=
  if (match s.agentName with
      | some an => !(an == "") && (evName.toLower == an.toLower)
      | none => false) then
    (s, none)
  else
    match evPos with
    | some p =>
      if distGTb s.position p cfg.hearingRadius then
        (s, none)
      else
        ({ s with pendingTranscripts := pushTranscript s.pendingTranscripts ⟨evName, evText, now⟩ },
         some (Eff.notify evFrom evName evText (round (distance s.position p))))
    | none =>
      ({ s with pendingTranscripts := pushTranscript s.pendingTranscripts ⟨evName, evText, now⟩ },
       some (Eff.notify evFrom evName evText 0))

/-- The `peer_moved` patch of the peer map (manager.ts lines 52-55): update the
stored peer's position only when the peer is known AND the event carries a
position. -/
def peerMovedPeers (peers : List PeerInfo) (id : String) (pos : Option Pos) : List PeerInfo :=
  match peersGet peers id, pos with
  | some peer, some p => peersSet peers { peer with position := some p }
  | _, _ => peers

/-- The `peer_moved` breadcrumb recording (manager.ts lines 56-67): when following
and the event carries a position, the follow target is resolved against the
(already patched) peer map and a crumb is recorded only when the moved id is the
target's id.  `peers1` is the patched peer map. -/
def peerMovedCrumbs (s : RamblyState) (peers1 : List PeerInfo) (id : String)
    (pos : Option Pos) : List Pos :=
  match s.followTarget, pos with
  | some tname, some p =>
    match findPeerByName peers1 tname with
    | some target =>
      if target.id == id then recordCrumb s.followBreadcrumbs p
      else s.followBreadcrumbs
    | none => s.followBreadcrumbs
  | _, _ => s.followBreadcrumbs

/-- RamblyManager.handleEvent (manager.ts lines 39-109). -/
noncomputable def handleEvent (cfg : RamblyPluginConfig) (s : RamblyState)
    (ev : DaemonEvent) (now : ℤ) : RamblyState × Option Eff :=
  match ev with
  | DaemonEvent.joined room peerId =>
    ({ s with connected := true, room := some room, peerId := some peerId }, none)
  | DaemonEvent.peer_join id name pos =>
    ({ s with peers := peersSet s.peers ⟨id, name, pos⟩ }, none)
  | DaemonEvent.peer_moved id _name pos =>
    ({ s with
         peers := peerMovedPeers s.peers id pos
         followBreadcrumbs := peerMovedCrumbs s (peerMovedPeers s.peers id pos) id pos },
     none)
  | DaemonEvent.peer_leave id _nm =>
    let s1 := { s with peers := peersDelete s.peers id }
    (match s1.followTarget with
     | some tname =>
       if findPeerByName s1.peers tname = none then stopFollowS s1 else s1
     | none => s1, none)
  | DaemonEvent.peersEv ps =>
    ({ s with peers := ps.foldl peersSet [] }, none)
  | DaemonEvent.statusEv room pos ps =>
    ({ s with room := some room, position := pos, peers := ps.foldl peersSet [] }, none)
  | DaemonEvent.moved x y =>
    ({ s with position := ⟨x, y⟩ }, none)
  | DaemonEvent.transcript f n t p =>
    handleTranscript cfg s f n t p now
  | DaemonEvent.leftEv =>
    (cleanupS s, none)
  | DaemonEvent.spoke _ => (s, none)
  | DaemonEvent.errorEv _ => (s, none)

open Classical in
/-- JS `Math.atan2(y, x)` over the reals (signed-zero subtleties of floating point
are not modelled; only the `x`/`y` sign case split is). -/
noncomputable def atan2 (y x : ℝ) : ℝ :=
  if 0 < x then Real.arctan (y / x)
  else if x < 0 then
    (if 0 ≤ y then Real.arctan (y / x) + Real.pi else Real.arctan (y / x) - Real.pi)
  else
    (if 0 < y then Real.pi / 2 else if y < 0 then -(Real.pi / 2) else 0)

/-- The stepper's catch-up loop (manager.ts lines 320-323):
`while (crumbs.length > 1 && distance(position, crumbs[0]) < followStepSize) crumbs.shift()`. -/
def popReached (cfg : RamblyPluginConfig) (pos : Pos) : List Pos → List Pos
  | [] => []
  | [c] => [c]
  | c :: c2 :: rest =>
    if distLTb pos c cfg.followStepSize then popReached cfg pos (c2 :: rest)
    else c :: c2 :: rest

/-- One firing of the follow stepper's interval callback (manager.ts lines 289-342).
The source computes `stepDist = Math.sqrt(dx*dx + dy*dy)` and checks `stepDist < 1`;
we check the equivalent `dx^2 + dy^2 < 1` on the rationals.  `nextPoint` is
`crumbs[0] || target.position` after the catch-up loop, i.e. the head of the popped
trail with the target position as fallback. -/
noncomputable def followTickBody (cfg : RamblyPluginConfig) (s : RamblyState) :
    RamblyState × List Eff :=
  if s.followTarget = none ∨ s.connected = false then
    ({ s with followInterval := false }, [])
  else
    match s.followTarget with
    | none => ({ s with followInterval := false }, [])
    | some tname =>
      match findPeerByName s.peers tname with
      | none => (s, [])
      | some target =>
        match target.position with
        | none => (s, [])
        | some tp =>
          let crumbs1 := recordCrumb s.followBreadcrumbs tp
          if distLEb s.position tp cfg.followDistance then
            ({ s with followBreadcrumbs := crumbs1 },
             [Eff.cmd (DaemonCommand.move s.position.x s.position.y none (some 0))])
          else
            let crumbs2 := popReached cfg s.position crumbs1
            let np := crumbs2.headD tp
            let dx := np.x - s.position.x
            let dy := np.y - s.position.y
            if dx ^ 2 + dy ^ 2 < 1 then
              ({ s with followBreadcrumbs := crumbs2 }, [])
            else
              let stepDist : ℝ := Real.sqrt (((dx ^ 2 + dy ^ 2 : ℚ) : ℝ))
              let theta : ℝ := atan2 (dy : ℝ) (dx : ℝ)
              let stepSize : ℝ := min ((cfg.followStepSize : ℚ) : ℝ) stepDist
              let nx : ℤ := round (((s.position.x : ℚ) : ℝ) + ((dx : ℚ) : ℝ) / stepDist * stepSize)
              let ny : ℤ := round (((s.position.y : ℚ) : ℝ) + ((dy : ℚ) : ℝ) / stepDist * stepSize)
              ({ s with followBreadcrumbs := crumbs2, position := ⟨(nx : ℚ), (ny : ℚ)⟩ },
               [Eff.cmd (DaemonCommand.move (nx : ℚ) (ny : ℚ) (some theta) (some 1))])

/-- RamblyManager.join (manager.ts lines 153-176).  `spawnErr = none` models a spawn
whose `joined` handshake succeeds (the `joined` event itself arrives separately on
the event stream); `spawnErr = some m` models `daemon.spawn` rejecting with message
`m`.  Returns (new state, effects, returned message). -/
def joinFn (cfg : RamblyPluginConfig) (s : RamblyState) (room : String)
    (name : Option String) (spawnErr : Option String) :
    RamblyState × List Eff × String :=
  if s.connected = true ∧ s.room = some room then
    (s, [], "Already in room \"" ++ room ++ "\".")
  else if s.connected = true then
    (s, [], "Already connected to " ++ (s.room.getD "null") ++ ". Leave first.")
  else
    let an := match name with
      | some n => if n = "" then cfg.defaultName else n
      | none => cfg.defaultName
    let s1 := { s with agentName := some an }
    match spawnErr with
    | none =>
      (s1, [Eff.spawn room an cfg.daemonCommand cfg.voice, Eff.cmd DaemonCommand.peersReq],
       "Joined room \"" ++ room ++ "\" as \"" ++ an ++ "\".")
    | some m =>
      (s1, [Eff.spawn room an cfg.daemonCommand cfg.voice], "Failed to join: " ++ m)

/-- RamblyManager.leave (manager.ts lines 178-186). -/
def leaveFn (s : RamblyState) : RamblyState × List Eff × String :=
  if s.connected = false then
    (s, [], "Not connected to any room.")
  else
    (cleanupS (stopFollowS s), [Eff.kill], "Left the room.")

/-- RamblyManager.speak (manager.ts lines 188-194). -/
def speakFn (s : RamblyState) (text : String) : RamblyState × List Eff × String :=
  if s.connected = false then
    (s, [], "Not connected. Join a room first.")
  else
    (s, [Eff.cmd (DaemonCommand.speak text)], "Speaking: \"" ++ text ++ "\"")

/-- RamblyManager.move (manager.ts lines 196-203).  Note: the source does NOT touch
`followTarget`, `followBreadcrumbs` or the stepper timer here. -/
def moveFn (s : RamblyState) (x y : ℚ) : RamblyState × List Eff × String :=
  if s.connected = false then
    (s, [], "Not connected. Join a room first.")
  else
    ({ s with position := ⟨x, y⟩ },
     [Eff.cmd (DaemonCommand.move x y none none)],
     "Moved to (" ++ toString x ++ ", " ++ toString y ++ ").")

/-- RamblyManager.follow (manager.ts lines 205-224).  `startFollowLoop` first clears
any existing timer and then schedules a new one; the net effect on the timer flag is
`true`. -/
def followFn (s : RamblyState) (name : String) : RamblyState × List Eff × String :=
  if s.connected = false then
    (s, [], "Not connected. Join a room first.")
  else
    match findPeerByName s.peers name with
    | none => (s, [], "No peer named \"" ++ name ++ "\" found in the room.")
    | some peer =>
      ({ s with
           followTarget := some name
           followBreadcrumbs := match peer.position with
             | some p => [p]
             | none => []
           followInterval := true },
       [], "Now following \"" ++ name ++ "\".")

/-- RamblyManager.unfollow (manager.ts lines 226-233). -/
def unfollowFn (s : RamblyState) : RamblyState × List Eff × String :=
  match s.followTarget with
  | none => (s, [], "Not following anyone.")
  | some was => (stopFollowS s, [], "Stopped following \"" ++ was ++ "\".")

/-- RamblyManager.clearTranscripts (manager.ts lines 276-278). -/
def clearTranscriptsFn (s : RamblyState) : RamblyState :=
  { s with pendingTranscripts := [] }

/-- One schedulable operation of the single-threaded engine: an inbound daemon
event (with the wall-clock time at which it is handled), a firing of the follow
stepper timer, or a command-facade invocation.  `status()` is omitted: it only
sends a `status` request and renders a report without mutating state. -/
inductive Op where
  | ev (e : DaemonEvent) (now : ℤ)
  | tick
  | joinOp (room : String) (name : Option String) (spawnErr : Option String)
  | leaveOp
  | speakOp (text : String)
  | moveOp (x y : ℚ)
  | followOp (name : String)
  | unfollowOp
  | clearTranscriptsOp
deriving DecidableEq

/-- The engine's small-step function: state and emitted effects for one operation.
A `tick` only runs the stepper body when the recurring timer is scheduled
(`followInterval = true`); with no timer there is no callback to fire. -/
noncomputable def step (cfg : RamblyPluginConfig) (s : RamblyState) :
    Op → RamblyState × List Eff
  | Op.ev e now =>
    match handleEvent cfg s e now with
    | (s', some n) => (s', [n])
    | (s', none) => (s', [])
  | Op.tick =>
    match s.followInterval with
    | false => (s, [])
    | true => followTickBody cfg s
  | Op.joinOp room name spawnErr =>
    match joinFn cfg s room name spawnErr with
    | (s', effs, _) => (s', effs)
  | Op.leaveOp =>
    match leaveFn s with
    | (s', effs, _) => (s', effs)
  | Op.speakOp text =>
    match speakFn s text with
    | (s', effs, _) => (s', effs)
  | Op.moveOp x y =>
    match moveFn s x y with
    | (s', effs, _) => (s', effs)
  | Op.followOp name =>
    match followFn s name with
    | (s', effs, _) => (s', effs)
  | Op.unfollowOp =>
    match unfollowFn s with
    | (s', effs, _) => (s', effs)
  | Op.clearTranscriptsOp => (clearTranscriptsFn s, [])

/-- Run a sequence of operations from a state. -/
noncomputable def run (cfg : RamblyPluginConfig) (s : RamblyState) : List Op → RamblyState
  | [] => s
  | op :: ops => run cfg (step cfg s op).1 ops

/-- The effects emitted by stepper ticks alone along a run (the move commands that
"originate from the follow stepper"). -/
noncomputable def tickEmits (cfg : RamblyPluginConfig) (s : RamblyState) :
    List Op → List Eff
  | [] => []
  | op :: ops =>
    (match op with
     | Op.tick => (step cfg s op).2
     | _ => []) ++ tickEmits cfg (step cfg s op).1 ops

/-- A connected state in follow mode: following "David" whose last observed
position (300,300) seeds the breadcrumb trail. -/
def s_follow : RamblyState :=
  { connected := true
    room := some "forest:demo"
    peerId := some "self"
    agentName := some "Agent"
    position := ⟨250, 230⟩
    peers := [⟨"p1", "David", some ⟨300, 300⟩⟩]
    followTarget := some "David"
    followBreadcrumbs := [⟨300, 300⟩]
    pendingTranscripts := []
    followInterval := true }

/-- A connected state holding one buffered transcript. -/
def s_conn : RamblyState :=
  { connected := true
    room := some "forest:demo"
    peerId := some "self"
    agentName := some "Agent"
    position := ⟨250, 230⟩
    peers := []
    followTarget := none
    followBreadcrumbs := []
    pendingTranscripts := [⟨"David", "hi there", 5⟩]
    followInterval := false }

/-- A connected listening state with display name "Haku" at the origin. -/
def s_listen : RamblyState :=
  { connected := true
    room := some "forest:demo"
    peerId := some "self"
    agentName := some "Haku"
    position := ⟨0, 0⟩
    peers := []
    followTarget := none
    followBreadcrumbs := []
    pendingTranscripts := []
    followInterval := false }

/-- Is this operation a (successful or not) `follow(name)` invocation? -/
def isFollowOp : Op → Bool
  | Op.followOp _ => true
  | _ => false

/-- The breadcrumb-trail invariant: at most 100 points, consecutive points more
than 5 units apart. -/
def TrailInv (l : List Pos) : Prop :=
  l.length ≤ 100 ∧ l.Chain' (fun a b => (5 : ℝ) < distance a b)

open Classical in
/-- Waypoint selection as the spec words it: the oldest unvisited breadcrumb is the
waypoint; while more than one breadcrumb remains and the current position is within
one step size of the oldest, that breadcrumb is discarded and the next becomes the
waypoint; with no breadcrumbs the target position itself is the waypoint.  Stated
over the real distance, to be compared with the source's `popReached`. -/
noncomputable def specSelectWaypoint (cfg : RamblyPluginConfig) (pos : Pos) :
    List Pos → Pos → Pos
  | [], tp => tp
  | [c], _ => c
  | c :: c2 :: rest, tp =>
    if distance pos c < (cfg.followStepSize : ℝ) then
      specSelectWaypoint cfg pos (c2 :: rest) tp
    else c

/-- One movement step as the spec words it: travel from `pos` toward `np` along the
unit direction vector by the smaller of the configured step size and the remaining
distance, rounding each coordinate to an integer. -/
noncomputable def specStepToward (cfg : RamblyPluginConfig) (pos np : Pos) : ℤ × ℤ :=
  (round ((pos.x : ℝ) + ((np.x : ℝ) - (pos.x : ℝ)) / distance pos np
      * min ((cfg.followStepSize : ℚ) : ℝ) (distance pos np)),
   round ((pos.y : ℝ) + ((np.y : ℝ) - (pos.y : ℝ)) / distance pos np
      * min ((cfg.followStepSize : ℚ) : ℝ) (distance pos np)))

/-- The configuration of the C5 counterexample: default values except a small
comfort zone (`followDistance = 1/2`), a legal plugin-config value. -/
def cfg_sub : RamblyPluginConfig :=
  { DEFAULT_CONFIG with followDistance := 1 / 2 }

/-- A following state whose single breadcrumb lies half a unit from the current
position while the target is 5 units away (reachable: follow was started when the
target stood at (250.5, 230), and the target then drifted within the 5-unit
decimation threshold to (255, 230)). -/
def s_sub : RamblyState :=
  { connected := true
    room := some "forest:demo"
    peerId := some "self"
    agentName := some "Agent"
    position := ⟨250, 230⟩
    peers := [⟨"p1", "David", some ⟨255, 230⟩⟩]
    followTarget := some "David"
    followBreadcrumbs := [⟨501 / 2, 230⟩]
    pendingTranscripts := []
    followInterval := true }

theorem distSq_cast (a b : Pos) :
    ((distSq a b : ℚ) : ℝ) = ((a.x : ℝ) - (b.x : ℝ)) ^ 2 + ((a.y : ℝ) - (b.y : ℝ)) ^ 2 := by
  rw [distSq]
  push_cast
  ring

theorem distance_eq_sqrt_distSq (a b : Pos) :
    distance a b = Real.sqrt ((distSq a b : ℚ) : ℝ) := by
  rw [distSq_cast]
  rfl

theorem distSq_nonneg (a b : Pos) : 0 ≤ distSq a b := by
  have hx : (0 : ℚ) ≤ (a.x - b.x) ^ 2 := sq_nonneg _
  have hy : (0 : ℚ) ≤ (a.y - b.y) ^ 2 := sq_nonneg _
  simpa [distSq] using add_nonneg hx hy

theorem distLEb_iff (a b : Pos) (r : ℚ) :
    distLEb a b r = true ↔ distance a b ≤ (r : ℝ) := by
  rw [distance_eq_sqrt_distSq, distLEb]
  simp only [Bool.and_eq_true, decide_eq_true_eq]
  constructor
  · rintro ⟨hr, hle⟩
    have hle' : ((distSq a b : ℚ) : ℝ) ≤ ((r : ℚ) : ℝ) ^ 2 := by exact_mod_cast hle
    have hr' : (0 : ℝ) ≤ (r : ℝ) := by exact_mod_cast hr
    calc Real.sqrt ((distSq a b : ℚ) : ℝ) ≤ Real.sqrt ((r : ℝ) ^ 2) := Real.sqrt_le_sqrt hle'
    _ = (r : ℝ) := Real.sqrt_sq hr'
  · intro h
    have hs : (0 : ℝ) ≤ Real.sqrt ((distSq a b : ℚ) : ℝ) := Real.sqrt_nonneg _
    have hr' : (0 : ℝ) ≤ (r : ℝ) := le_trans hs h
    have hd : (0 : ℝ) ≤ ((distSq a b : ℚ) : ℝ) := by exact_mod_cast distSq_nonneg a b
    have hsq : ((distSq a b : ℚ) : ℝ) ≤ (r : ℝ) ^ 2 := by
      have := Real.sq_sqrt hd
      nlinarith [Real.sqrt_nonneg ((distSq a b : ℚ) : ℝ)]
    exact ⟨by exact_mod_cast hr', by exact_mod_cast hsq⟩

theorem distLTb_iff (a b : Pos) (r : ℚ) :
    distLTb a b r = true ↔ distance a b < (r : ℝ) := by
  rw [distance_eq_sqrt_distSq, distLTb]
  simp only [Bool.and_eq_true, decide_eq_true_eq]
  constructor
  · rintro ⟨hr, hlt⟩
    have hlt' : ((distSq a b : ℚ) : ℝ) < ((r : ℚ) : ℝ) ^ 2 := by exact_mod_cast hlt
    have hr' : (0 : ℝ) < (r : ℝ) := by exact_mod_cast hr
    calc Real.sqrt ((distSq a b : ℚ) : ℝ) < Real.sqrt ((r : ℝ) ^ 2) := by
          apply (Real.sqrt_lt_sqrt (by exact_mod_cast distSq_nonneg a b)) hlt'
    _ = (r : ℝ) := Real.sqrt_sq (le_of_lt hr')
  · intro h
    have hs : (0 : ℝ) ≤ Real.sqrt ((distSq a b : ℚ) : ℝ) := Real.sqrt_nonneg _
    have hr' : (0 : ℝ) < (r : ℝ) := lt_of_le_of_lt hs h
    have hd : (0 : ℝ) ≤ ((distSq a b : ℚ) : ℝ) := by exact_mod_cast distSq_nonneg a b
    have hsq : ((distSq a b : ℚ) : ℝ) < (r : ℝ) ^ 2 := by
      have := Real.sq_sqrt hd
      nlinarith [Real.sqrt_nonneg ((distSq a b : ℚ) : ℝ)]
    exact ⟨by exact_mod_cast hr', by exact_mod_cast hsq⟩

theorem distGTb_iff (a b : Pos) (r : ℚ) :
    distGTb a b r = true ↔ (r : ℝ) < distance a b := by
  rw [distance_eq_sqrt_distSq, distGTb]
  simp only [Bool.or_eq_true, decide_eq_true_eq]
  have hd : (0 : ℝ) ≤ ((distSq a b : ℚ) : ℝ) := by exact_mod_cast distSq_nonneg a b
  constructor
  · rintro (hr | hsq)
    · have hr' : (r : ℝ) < 0 := by exact_mod_cast hr
      exact lt_of_lt_of_le hr' (Real.sqrt_nonneg _)
    · rcases lt_or_le r 0 with hneg | hpos
      · have hr' : (r : ℝ) < 0 := by exact_mod_cast hneg
        exact lt_of_lt_of_le hr' (Real.sqrt_nonneg _)
      · have hpos' : (0 : ℝ) ≤ (r : ℝ) := by exact_mod_cast hpos
        have hsq' : ((r : ℝ)) ^ 2 < ((distSq a b : ℚ) : ℝ) := by exact_mod_cast hsq
        have := Real.sqrt_lt_sqrt (sq_nonneg ((r : ℝ))) hsq'
        rwa [Real.sqrt_sq hpos'] at this
  · intro h
    rcases lt_or_le r 0 with hneg | hpos
    · exact Or.inl hneg
    · right
      have hpos' : (0 : ℝ) ≤ (r : ℝ) := by exact_mod_cast hpos
      have hs := Real.sq_sqrt hd
      have : ((r : ℝ)) ^ 2 < ((distSq a b : ℚ) : ℝ) := by nlinarith [Real.sqrt_nonneg ((distSq a b : ℚ) : ℝ)]
      exact_mod_cast this

theorem distSq_eq_zero_iff (a b : Pos) : distSq a b = 0 ↔ a = b := by
  constructor
  · intro h
    rw [distSq] at h
    have hx2 : (a.x - b.x) ^ 2 = 0 := by nlinarith [sq_nonneg (a.x - b.x), sq_nonneg (a.y - b.y)]
    have hy2 : (a.y - b.y) ^ 2 = 0 := by nlinarith [sq_nonneg (a.x - b.x), sq_nonneg (a.y - b.y)]
    have hx : a.x = b.x := by
      have := pow_eq_zero_iff (n := 2) (by norm_num) |>.mp hx2
      linarith [this]
    have hy : a.y = b.y := by
      have := pow_eq_zero_iff (n := 2) (by norm_num) |>.mp hy2
      linarith [this]
    cases a
    cases b
    simp_all
  · rintro rfl
    rw [distSq]
    ring

/-- C9: the distance function of RamblyManager is the Euclidean distance and is
symmetric, zero on the diagonal, non-negative, strictly positive off the diagonal,
and zero exactly when the two positions coincide. -/
theorem distance_metric_props (a b : Pos) :
    distance a b = Real.sqrt (((a.x : ℝ) - (b.x : ℝ)) ^ 2 + ((a.y : ℝ) - (b.y : ℝ)) ^ 2) ∧
    distance a b = distance b a ∧
    distance a a = 0 ∧
    0 ≤ distance a b ∧
    (a ≠ b → 0 < distance a b) ∧
    (distance a b = 0 ↔ a = b) := by
  have hzero : distance a b = 0 ↔ a = b := by
    rw [distance_eq_sqrt_distSq]
    rw [Real.sqrt_eq_zero (by exact_mod_cast distSq_nonneg a b)]
    rw [show ((distSq a b : ℚ) : ℝ) = 0 ↔ distSq a b = 0 by exact_mod_cast Iff.rfl]
    exact distSq_eq_zero_iff a b
  refine ⟨rfl, ?_, ?_, Real.sqrt_nonneg _, ?_, hzero⟩
  · rw [distance, distance]
    congr 1
    ring
  · rw [distance]
    simp
  · intro hne
    rcases lt_or_eq_of_le (Real.sqrt_nonneg (((a.x : ℝ) - (b.x : ℝ)) ^ 2 + ((a.y : ℝ) - (b.y : ℝ)) ^ 2)) with h | h
    · exact h
    · exact absurd (hzero.mp h.symm) hne

/-- Witness for C9 at a concrete pair of distinct positions. -/
theorem distance_metric_props_witness :
    (Pos.mk 0 0 ≠ Pos.mk 3 4) ∧ 0 < distance (Pos.mk 0 0) (Pos.mk 3 4) :=
  ⟨by decide, (distance_metric_props (Pos.mk 0 0) (Pos.mk 3 4)).2.2.2.2.1 (by decide)⟩

/-- C1: the spec's teleport/discontinuity policy is absent from the code.  When the
followed peer jumps from (300,300) to (600,600) — a jump of more than 200 units —
the `peer_moved` handler simply appends the new position to the breadcrumb trail;
the old trail is NOT discarded and the trail does not end up containing only the
new position. -/
theorem teleport_keeps_old_trail :
    (200 : ℝ) < distance ⟨300, 300⟩ ⟨600, 600⟩ ∧
    (step DEFAULT_CONFIG s_follow
        (Op.ev (DaemonEvent.peer_moved "p1" "David" (some ⟨600, 600⟩)) 0)).1.followBreadcrumbs
      = [⟨300, 300⟩, ⟨600, 600⟩] := by
  constructor
  · have h := (distGTb_iff ⟨300, 300⟩ ⟨600, 600⟩ 200).mp (by norm_num [distGTb, distSq])
    exact_mod_cast h
  · simp only [step, handleEvent, peerMovedPeers, peerMovedCrumbs, s_follow, DEFAULT_CONFIG,
      peersGet, peersSet, findPeerByName, recordCrumb, pushCrumb, distGTb, distSq]
    norm_num

/-- C2 counterexample: the recent-transcript ring buffer survives both a `left`
event and an explicit `leave()` — `cleanup()` never clears `pendingTranscripts`,
so this piece of soft history does cross the disconnect boundary. -/
theorem left_event_keeps_transcripts :
    (step DEFAULT_CONFIG s_conn (Op.ev DaemonEvent.leftEv 0)).1.pendingTranscripts
        = [⟨"David", "hi there", 5⟩] ∧
    (leaveFn s_conn).1.pendingTranscripts = [⟨"David", "hi there", 5⟩] := by
  exact ⟨rfl, rfl⟩

/-- C2 (amended): a `left` event, and an explicit `leave()` while connected, reset
the connection fields, the peer map, the follow target, the trail and the stepper
timer — but the transcript buffer, the agent name and the position persist. -/
theorem left_and_leave_reset_state (cfg : RamblyPluginConfig) (s : RamblyState)
    (now : ℤ) (hconn : s.connected = true) :
    ((step cfg s (Op.ev DaemonEvent.leftEv now)).1.connected = false ∧
     (step cfg s (Op.ev DaemonEvent.leftEv now)).1.room = none ∧
     (step cfg s (Op.ev DaemonEvent.leftEv now)).1.peerId = none ∧
     (step cfg s (Op.ev DaemonEvent.leftEv now)).1.followTarget = none ∧
     (step cfg s (Op.ev DaemonEvent.leftEv now)).1.peers = [] ∧
     (step cfg s (Op.ev DaemonEvent.leftEv now)).1.followBreadcrumbs = [] ∧
     (step cfg s (Op.ev DaemonEvent.leftEv now)).1.followInterval = false ∧
     (step cfg s (Op.ev DaemonEvent.leftEv now)).1.pendingTranscripts = s.pendingTranscripts ∧
     (step cfg s (Op.ev DaemonEvent.leftEv now)).1.agentName = s.agentName ∧
     (step cfg s (Op.ev DaemonEvent.leftEv now)).1.position = s.position) ∧
    ((leaveFn s).1.connected = false ∧
     (leaveFn s).1.room = none ∧
     (leaveFn s).1.peerId = none ∧
     (leaveFn s).1.followTarget = none ∧
     (leaveFn s).1.peers = [] ∧
     (leaveFn s).1.followBreadcrumbs = [] ∧
     (leaveFn s).1.followInterval = false ∧
     (leaveFn s).1.pendingTranscripts = s.pendingTranscripts ∧
     (leaveFn s).1.agentName = s.agentName ∧
     (leaveFn s).1.position = s.position) := by
  constructor
  · exact ⟨rfl, rfl, rfl, rfl, rfl, rfl, rfl, rfl, rfl, rfl⟩
  · rw [leaveFn]
    rw [hconn]
    exact ⟨rfl, rfl, rfl, rfl, rfl, rfl, rfl, rfl, rfl, rfl⟩

/-- Witness for C2's amended theorem at a concrete connected state. -/
theorem left_and_leave_reset_state_witness :
    s_conn.connected = true ∧
    (step DEFAULT_CONFIG s_conn (Op.ev DaemonEvent.leftEv 0)).1.room = none ∧
    (leaveFn s_conn).1.pendingTranscripts = s_conn.pendingTranscripts :=
  ⟨rfl, (left_and_leave_reset_state DEFAULT_CONFIG s_conn 0 rfl).1.2.1,
   (left_and_leave_reset_state DEFAULT_CONFIG s_conn 0 rfl).2.2.2.2.2.2.2.2.1⟩

/-- C8: `join(room)` while already connected to the same room is an idempotent
no-op — unchanged state, no effects (in particular no spawn), success message;
`join(room)` while connected to a different room fails with the AlreadyConnected
message and likewise performs no spawn and leaves the state unchanged. -/
theorem join_idempotent (cfg : RamblyPluginConfig) (s : RamblyState) (room : String)
    (name : Option String) (spawnErr : Option String) :
    (s.connected = true → s.room = some room →
      joinFn cfg s room name spawnErr = (s, [], "Already in room \"" ++ room ++ "\".")) ∧
    (s.connected = true → s.room ≠ some room →
      joinFn cfg s room name spawnErr
        = (s, [], "Already connected to " ++ (s.room.getD "null") ++ ". Leave first.")) := by
  constructor
  · intro hc hr
    unfold joinFn
    rw [if_pos ⟨hc, hr⟩]
  · intro hc hr
    unfold joinFn
    rw [if_neg (by intro h; exact hr h.2)]
    rw [if_pos hc]

/-- Witness for C8: joining the current room again is a no-op, joining another
room while connected fails without effects. -/
theorem join_idempotent_witness :
    joinFn DEFAULT_CONFIG s_conn "forest:demo" none none
      = (s_conn, [], "Already in room \"forest:demo\".") ∧
    joinFn DEFAULT_CONFIG s_conn "other-room" none none
      = (s_conn, [], "Already connected to forest:demo. Leave first.") :=
  ⟨(join_idempotent DEFAULT_CONFIG s_conn "forest:demo" none none).1 rfl rfl,
   (join_idempotent DEFAULT_CONFIG s_conn "other-room" none none).2 rfl (by decide)⟩

theorem ramblyState_ext {a b : RamblyState}
    (h1 : a.connected = b.connected) (h2 : a.room = b.room) (h3 : a.peerId = b.peerId)
    (h4 : a.agentName = b.agentName) (h5 : a.position = b.position) (h6 : a.peers = b.peers)
    (h7 : a.followTarget = b.followTarget) (h8 : a.followBreadcrumbs = b.followBreadcrumbs)
    (h9 : a.pendingTranscripts = b.pendingTranscripts)
    (h10 : a.followInterval = b.followInterval) : a = b := by
  cases a
  cases b
  dsimp only at h1 h2 h3 h4 h5 h6 h7 h8 h9 h10
  subst h1 h2 h3 h4 h5 h6 h7 h8 h9 h10
  rfl

theorem findPeerByName_mem {ps : List PeerInfo} {n : String} {t : PeerInfo}
    (h : findPeerByName ps n = some t) : t ∈ ps :=
  List.mem_of_find?_eq_some h

theorem peersGet_none_id {ps : List PeerInfo} {id : String}
    (h : peersGet ps id = none) : ∀ q ∈ ps, (q.id == id) = false := by
  intro q hq
  have := List.find?_eq_none.mp h q hq
  simpa using this

theorem peerMovedPeers_of_get_none {ps : List PeerInfo} {id : String} {pos : Option Pos}
    (h : peersGet ps id = none) : peerMovedPeers ps id pos = ps := by
  unfold peerMovedPeers
  rw [h]

theorem peerMovedPeers_of_pos_none (ps : List PeerInfo) (id : String) :
    peerMovedPeers ps id none = ps := by
  unfold peerMovedPeers
  cases peersGet ps id <;> rfl

theorem peerMovedCrumbs_of_pos_none (s : RamblyState) (peers1 : List PeerInfo)
    (id : String) : peerMovedCrumbs s peers1 id none = s.followBreadcrumbs := by
  unfold peerMovedCrumbs
  cases s.followTarget <;> rfl

theorem peerMovedCrumbs_of_get_none {s : RamblyState} {peers1 : List PeerInfo}
    {id : String} {pos : Option Pos} (h : peersGet peers1 id = none) :
    peerMovedCrumbs s peers1 id pos = s.followBreadcrumbs := by
  unfold peerMovedCrumbs
  cases s.followTarget with
  | none => cases pos <;> rfl
  | some tname =>
    cases pos with
    | none => rfl
    | some p =>
      show (match findPeerByName peers1 tname with
            | some target =>
              if target.id == id then recordCrumb s.followBreadcrumbs p
              else s.followBreadcrumbs
            | none => s.followBreadcrumbs) = s.followBreadcrumbs
      cases hfind : findPeerByName peers1 tname with
      | none => rfl
      | some target =>
        have hid := peersGet_none_id h target (findPeerByName_mem hfind)
        simp [hid]

/-- C10: a `peer_moved` event is frame-silent — it emits nothing and leaves every
field except the matched peer's position and (when following that peer) the
breadcrumb trail unchanged; an unknown peer id leaves the state entirely unchanged
(the peer is NOT inserted, unlike `peer_join`, which upserts), and an event without
a position likewise changes nothing. -/
theorem peer_moved_frame (cfg : RamblyPluginConfig) (s : RamblyState) (id nm : String)
    (pos : Option Pos) (now : ℤ) :
    (step cfg s (Op.ev (DaemonEvent.peer_moved id nm pos) now)).2 = [] ∧
    ((step cfg s (Op.ev (DaemonEvent.peer_moved id nm pos) now)).1.connected = s.connected ∧
     (step cfg s (Op.ev (DaemonEvent.peer_moved id nm pos) now)).1.room = s.room ∧
     (step cfg s (Op.ev (DaemonEvent.peer_moved id nm pos) now)).1.peerId = s.peerId ∧
     (step cfg s (Op.ev (DaemonEvent.peer_moved id nm pos) now)).1.agentName = s.agentName ∧
     (step cfg s (Op.ev (DaemonEvent.peer_moved id nm pos) now)).1.position = s.position ∧
     (step cfg s (Op.ev (DaemonEvent.peer_moved id nm pos) now)).1.followTarget = s.followTarget ∧
     (step cfg s (Op.ev (DaemonEvent.peer_moved id nm pos) now)).1.pendingTranscripts = s.pendingTranscripts ∧
     (step cfg s (Op.ev (DaemonEvent.peer_moved id nm pos) now)).1.followInterval = s.followInterval) ∧
    (peersGet s.peers id = none →
      (step cfg s (Op.ev (DaemonEvent.peer_moved id nm pos) now)).1 = s) ∧
    (pos = none →
      (step cfg s (Op.ev (DaemonEvent.peer_moved id nm pos) now)).1 = s) ∧
    (step cfg s (Op.ev (DaemonEvent.peer_join id nm pos) now)).1.peers
      = peersSet s.peers ⟨id, nm, pos⟩ := by
  refine ⟨rfl, ⟨rfl, rfl, rfl, rfl, rfl, rfl, rfl, rfl⟩, ?_, ?_, rfl⟩
  · intro h
    refine ramblyState_ext rfl rfl rfl rfl rfl ?_ rfl ?_ rfl rfl
    · show peerMovedPeers s.peers id pos = s.peers
      exact peerMovedPeers_of_get_none h
    · show peerMovedCrumbs s (peerMovedPeers s.peers id pos) id pos = s.followBreadcrumbs
      rw [peerMovedPeers_of_get_none h]
      exact peerMovedCrumbs_of_get_none h
  · intro h
    subst h
    refine ramblyState_ext rfl rfl rfl rfl rfl ?_ rfl ?_ rfl rfl
    · exact peerMovedPeers_of_pos_none s.peers id
    · exact peerMovedCrumbs_of_pos_none s _ id

/-- Witness for C10 at a concrete state with an unknown peer id. -/
theorem peer_moved_frame_witness :
    peersGet s_conn.peers "ghost" = none ∧
    (step DEFAULT_CONFIG s_conn
        (Op.ev (DaemonEvent.peer_moved "ghost" "Ghost" (some ⟨1, 2⟩)) 0)).1 = s_conn :=
  ⟨rfl, (peer_moved_frame DEFAULT_CONFIG s_conn "ghost" "Ghost" (some ⟨1, 2⟩) 0).2.2.1 rfl⟩

/-- C3: with the engine's display name set (non-empty; JS treats the empty string
as unset), a transcript is accepted — buffered and forwarded to the callback — if
and only if the speaker's name differs case-insensitively from the engine's own
name and either no speaker position accompanies the event or the speaker is within
the hearing radius, boundary inclusive.  A transcript beyond the radius, or from a
same-named speaker at any distance, leaves the state unchanged and triggers no
callback. -/
theorem transcript_accept_iff (cfg : RamblyPluginConfig) (s : RamblyState)
    (f n t : String) (p : Option Pos) (now : ℤ) (an : String)
    (hA : s.agentName = some an) (hne : an ≠ "") :
    ((handleTranscript cfg s f n t p now).2.isSome = true ↔
      (¬ n.toLower = an.toLower ∧
       (p = none ∨ ∃ q, p = some q ∧ distance s.position q ≤ (cfg.hearingRadius : ℝ)))) ∧
    (∀ q, p = some q → (cfg.hearingRadius : ℝ) < distance s.position q →
      handleTranscript cfg s f n t p now = (s, none)) ∧
    (n.toLower = an.toLower → handleTranscript cfg s f n t p now = (s, none)) ∧
    ((handleTranscript cfg s f n t p now).2.isSome = true →
      (handleTranscript cfg s f n t p now).1.pendingTranscripts
        = pushTranscript s.pendingTranscripts ⟨n, t, now⟩) := by
  have hbe : (an == "") = false := beq_eq_false_iff_ne.mpr hne
  by_cases hname : n.toLower = an.toLower
  · have hres : handleTranscript cfg s f n t p now = (s, none) := by
      unfold handleTranscript
      rw [hA]
      simp [hbe, hname]
    refine ⟨?_, fun q hq hgt => hres, fun _ => hres, ?_⟩
    · rw [hres]
      simp [hname]
    · rw [hres]
      intro hfalse
      simp at hfalse
  · cases p with
    | none =>
      have hres : handleTranscript cfg s f n t none now =
          ({ s with pendingTranscripts := pushTranscript s.pendingTranscripts ⟨n, t, now⟩ },
           some (Eff.notify f n t 0)) := by
        unfold handleTranscript
        rw [hA]
        simp [hbe, beq_eq_false_iff_ne.mpr hname]
      refine ⟨?_, ?_, fun hc => absurd hc hname, ?_⟩
      · rw [hres]
        simp [hname]
      · intro q hq
        cases hq
      · intro _
        rw [hres]
    | some q =>
      by_cases hgt : distGTb s.position q cfg.hearingRadius = true
      · have hfar : (cfg.hearingRadius : ℝ) < distance s.position q :=
          (distGTb_iff _ _ _).mp hgt
        have hres : handleTranscript cfg s f n t (some q) now = (s, none) := by
          unfold handleTranscript
          rw [hA]
          simp [hbe, beq_eq_false_iff_ne.mpr hname, hgt]
        refine ⟨?_, fun q' hq' hfar' => hres, fun hc => absurd hc hname, ?_⟩
        · rw [hres]
          simp only [Option.isSome_none]
          constructor
          · intro hfalse
            cases hfalse
          · rintro ⟨hn, hnone | ⟨q', hq', hle⟩⟩
            · cases hnone
            · injection hq' with hqq
              subst hqq
              exact absurd hle (not_le.mpr hfar)
        · rw [hres]
          intro hfalse
          simp at hfalse
      · have hgt' : distGTb s.position q cfg.hearingRadius = false := by
          rw [← Bool.not_eq_true]
          exact hgt
        have hle : distance s.position q ≤ (cfg.hearingRadius : ℝ) := by
          by_contra hlt
          exact hgt ((distGTb_iff _ _ _).mpr (not_le.mp hlt))
        have hres : handleTranscript cfg s f n t (some q) now =
            ({ s with pendingTranscripts := pushTranscript s.pendingTranscripts ⟨n, t, now⟩ },
             some (Eff.notify f n t (round (distance s.position q)))) := by
          unfold handleTranscript
          rw [hA]
          simp [hbe, beq_eq_false_iff_ne.mpr hname, hgt']
        refine ⟨?_, ?_, fun hc => absurd hc hname, ?_⟩
        · rw [hres]
          simp only [Option.isSome_some, true_iff]
          exact ⟨hname, Or.inr ⟨q, rfl, hle⟩⟩
        · intro q' hq' hfar
          injection hq' with hqq
          subst hqq
          exact absurd hfar (not_lt.mpr hle)
        · intro _
          rw [hres]

/-- Witness for C3 at a concrete state: speaker exactly at the hearing radius
(distance 150 via the 90-120-150 triangle). -/
theorem transcript_accept_iff_witness :
    s_listen.agentName = some "Haku" ∧ "Haku" ≠ "" ∧
    ((handleTranscript DEFAULT_CONFIG s_listen "abc" "David" "Hey" (some ⟨90, 120⟩) 0).2.isSome = true ↔
      (¬ "David".toLower = "Haku".toLower ∧
       ((some ⟨90, 120⟩ : Option Pos) = none ∨
        ∃ q, (some ⟨90, 120⟩ : Option Pos) = some q ∧
          distance s_listen.position q ≤ (DEFAULT_CONFIG.hearingRadius : ℝ)))) :=
  ⟨rfl, by decide,
   (transcript_accept_iff DEFAULT_CONFIG s_listen "abc" "David" "Hey" (some ⟨90, 120⟩) 0 "Haku"
      rfl (by decide)).1⟩

theorem step_ev_fst (cfg : RamblyPluginConfig) (s : RamblyState) (e : DaemonEvent) (now : ℤ) :
    (step cfg s (Op.ev e now)).1 = (handleEvent cfg s e now).1 := by
  show (match handleEvent cfg s e now with
        | (s', some n) => (s', [n])
        | (s', none) => (s', [])).1 = (handleEvent cfg s e now).1
  rcases handleEvent cfg s e now with ⟨s', _ | n⟩ <;> rfl

theorem step_join_fst (cfg : RamblyPluginConfig) (s : RamblyState) (room : String)
    (name spawnErr : Option String) :
    (step cfg s (Op.joinOp room name spawnErr)).1 = (joinFn cfg s room name spawnErr).1 := by
  show (match joinFn cfg s room name spawnErr with
        | (s', effs, _) => (s', effs)).1 = (joinFn cfg s room name spawnErr).1
  rcases joinFn cfg s room name spawnErr with ⟨s', effs, msg⟩
  rfl

theorem step_leave_fst (cfg : RamblyPluginConfig) (s : RamblyState) :
    (step cfg s Op.leaveOp).1 = (leaveFn s).1 := by
  show (match leaveFn s with
        | (s', effs, _) => (s', effs)).1 = (leaveFn s).1
  rcases leaveFn s with ⟨s', effs, msg⟩
  rfl

theorem step_speak_fst (cfg : RamblyPluginConfig) (s : RamblyState) (text : String) :
    (step cfg s (Op.speakOp text)).1 = (speakFn s text).1 := by
  show (match speakFn s text with
        | (s', effs, _) => (s', effs)).1 = (speakFn s text).1
  rcases speakFn s text with ⟨s', effs, msg⟩
  rfl

theorem step_move_fst (cfg : RamblyPluginConfig) (s : RamblyState) (x y : ℚ) :
    (step cfg s (Op.moveOp x y)).1 = (moveFn s x y).1 := by
  show (match moveFn s x y with
        | (s', effs, _) => (s', effs)).1 = (moveFn s x y).1
  rcases moveFn s x y with ⟨s', effs, msg⟩
  rfl

theorem step_follow_fst (cfg : RamblyPluginConfig) (s : RamblyState) (name : String) :
    (step cfg s (Op.followOp name)).1 = (followFn s name).1 := by
  show (match followFn s name with
        | (s', effs, _) => (s', effs)).1 = (followFn s name).1
  rcases followFn s name with ⟨s', effs, msg⟩
  rfl

theorem step_unfollow_fst (cfg : RamblyPluginConfig) (s : RamblyState) :
    (step cfg s Op.unfollowOp).1 = (unfollowFn s).1 := by
  show (match unfollowFn s with
        | (s', effs, _) => (s', effs)).1 = (unfollowFn s).1
  rcases unfollowFn s with ⟨s', effs, msg⟩
  rfl

theorem handleTranscript_interval (cfg : RamblyPluginConfig) (s : RamblyState)
    (f n t : String) (p : Option Pos) (now : ℤ) :
    (handleTranscript cfg s f n t p now).1.followInterval = s.followInterval := by
  unfold handleTranscript
  split
  · rfl
  · split
    · split
      · rfl
      · rfl
    · rfl

theorem handleTranscript_crumbs (cfg : RamblyPluginConfig) (s : RamblyState)
    (f n t : String) (p : Option Pos) (now : ℤ) :
    (handleTranscript cfg s f n t p now).1.followBreadcrumbs = s.followBreadcrumbs := by
  unfold handleTranscript
  split
  · rfl
  · split
    · split
      · rfl
      · rfl
    · rfl

theorem handleEvent_interval_false (cfg : RamblyPluginConfig) (s : RamblyState)
    (e : DaemonEvent) (now : ℤ) (h : s.followInterval = false) :
    (handleEvent cfg s e now).1.followInterval = false := by
  cases e with
  | joined room peerId => exact h
  | peer_join id name pos => exact h
  | peer_moved id name pos => exact h
  | peer_leave id nm =>
    show (match ({ s with peers := peersDelete s.peers id } : RamblyState).followTarget with
          | some tname =>
            if findPeerByName ({ s with peers := peersDelete s.peers id } : RamblyState).peers tname = none then
              stopFollowS { s with peers := peersDelete s.peers id }
            else { s with peers := peersDelete s.peers id }
          | none => { s with peers := peersDelete s.peers id }).followInterval = false
    cases s.followTarget with
    | none => exact h
    | some tname =>
      dsimp only
      split
      · rfl
      · exact h
  | peersEv ps => exact h
  | statusEv room pos ps => exact h
  | moved x y => exact h
  | transcript f n t p =>
    show (handleTranscript cfg s f n t p now).1.followInterval = false
    rw [handleTranscript_interval]
    exact h
  | leftEv => rfl
  | spoke t => exact h
  | errorEv m => exact h

theorem joinFn_interval (cfg : RamblyPluginConfig) (s : RamblyState) (room : String)
    (name spawnErr : Option String) :
    (joinFn cfg s room name spawnErr).1.followInterval = s.followInterval := by
  unfold joinFn
  split
  · rfl
  · split
    · rfl
    · cases spawnErr <;> rfl

theorem step_keeps_noTimer (cfg : RamblyPluginConfig) (s : RamblyState) (op : Op)
    (hop : isFollowOp op = false) (h : s.followInterval = false) :
    (step cfg s op).1.followInterval = false := by
  cases op with
  | ev e now =>
    rw [step_ev_fst]
    exact handleEvent_interval_false cfg s e now h
  | tick =>
    simp only [step, h]
  | joinOp room name spawnErr =>
    rw [step_join_fst, joinFn_interval]
    exact h
  | leaveOp =>
    rw [step_leave_fst]
    unfold leaveFn
    split
    · exact h
    · rfl
  | speakOp text =>
    rw [step_speak_fst]
    unfold speakFn
    split
    · exact h
    · exact h
  | moveOp x y =>
    rw [step_move_fst]
    unfold moveFn
    split
    · exact h
    · exact h
  | followOp name => simp [isFollowOp] at hop
  | unfollowOp =>
    rw [step_unfollow_fst]
    unfold unfollowFn
    split
    · exact h
    · rfl
  | clearTranscriptsOp => exact h

theorem tickEmits_nil (cfg : RamblyPluginConfig) :
    ∀ (ops : List Op) (s : RamblyState), s.followInterval = false →
      (∀ op ∈ ops, isFollowOp op = false) → tickEmits cfg s ops = [] := by
  intro ops
  induction ops with
  | nil => intro s h hops; rfl
  | cons op ops ih =>
    intro s h hops
    have hop := hops op (List.mem_cons_self op ops)
    have hpres := step_keeps_noTimer cfg s op hop h
    simp only [tickEmits]
    rw [ih (step cfg s op).1 hpres (fun o ho => hops o (List.mem_cons_of_mem op ho))]
    rw [List.append_nil]
    cases op with
    | tick => simp only [step, h]
    | ev e now => rfl
    | joinOp room name spawnErr => rfl
    | leaveOp => rfl
    | speakOp text => rfl
    | moveOp x y => rfl
    | followOp name => rfl
    | unfollowOp => rfl
    | clearTranscriptsOp => rfl

/-- C7: once `unfollow()` has run while a follow was active, the stepper timer is
unscheduled, and along any continuation that never calls `follow` again, stepper
ticks emit no effects at all — in particular no move commands originate from the
stepper. -/
theorem no_stepper_moves_after_unfollow (cfg : RamblyPluginConfig) (s : RamblyState)
    (tname : String) (ops : List Op) (hft : s.followTarget = some tname)
    (hops : ∀ op ∈ ops, isFollowOp op = false) :
    (step cfg s Op.unfollowOp).1.followInterval = false ∧
    tickEmits cfg (step cfg s Op.unfollowOp).1 ops = [] := by
  have h1 : (step cfg s Op.unfollowOp).1.followInterval = false := by
    rw [step_unfollow_fst]
    unfold unfollowFn
    rw [hft]
    rfl
  exact ⟨h1, tickEmits_nil cfg ops _ h1 hops⟩

/-- Witness for C7 at a concrete following state and continuation. -/
theorem no_stepper_moves_after_unfollow_witness :
    s_follow.followTarget = some "David" ∧
    (∀ op ∈ [Op.tick, Op.ev DaemonEvent.leftEv 0, Op.tick], isFollowOp op = false) ∧
    tickEmits DEFAULT_CONFIG (step DEFAULT_CONFIG s_follow Op.unfollowOp).1
      [Op.tick, Op.ev DaemonEvent.leftEv 0, Op.tick] = [] :=
  ⟨rfl, by decide,
   (no_stepper_moves_after_unfollow DEFAULT_CONFIG s_follow "David"
      [Op.tick, Op.ev DaemonEvent.leftEv 0, Op.tick] rfl (by decide)).2⟩

/-- C6 counterexample: an explicit absolute move does NOT end follow mode and does
NOT clear the stepper timer — after `move(100,100)` while following, the timer is
still scheduled, the follow target is still set, and the very next tick emits a
stepper effect. -/
theorem move_keeps_follow_timer :
    (step DEFAULT_CONFIG s_follow (Op.moveOp 100 100)).1.followInterval = true ∧
    (step DEFAULT_CONFIG s_follow (Op.moveOp 100 100)).1.followTarget = some "David" ∧
    (step DEFAULT_CONFIG (step DEFAULT_CONFIG s_follow (Op.moveOp 100 100)).1 Op.tick).2 ≠ [] := by
  refine ⟨rfl, rfl, ?_⟩
  have h1 : (step DEFAULT_CONFIG s_follow (Op.moveOp 100 100)).1
      = { s_follow with position := ⟨100, 100⟩ } := rfl
  have hpop : ∀ (cfg : RamblyPluginConfig) (pos c : Pos), popReached cfg pos [c] = [c] :=
    fun _ _ _ => rfl
  rw [h1]
  simp only [step, followTickBody, s_follow, DEFAULT_CONFIG, findPeerByName, recordCrumb,
    pushCrumb, distGTb, distLEb, distLTb, distSq]
  norm_num [hpop]
  rw [if_neg (by simp : ¬ ((some "David" : Option String) = none))]
  simp

/-- C6 (amended): the stepper timer is cleared on every ACTUAL transition out of
follow mode — explicit `unfollow` while following, departure of the followed peer
with no same-named peer remaining, explicit `leave()` while connected, and a `left`
event — but an explicit absolute move is not such a transition: it leaves follow
mode (and the timer) running, and the caller must invoke unfollow separately. -/
theorem follow_timer_cleared_on_exit (cfg : RamblyPluginConfig) (s : RamblyState)
    (tname id : String) (nm : Option String) (now : ℤ) :
    (s.followTarget = some tname →
      (step cfg s Op.unfollowOp).1.followInterval = false) ∧
    (s.followTarget = some tname →
      findPeerByName (peersDelete s.peers id) tname = none →
      (step cfg s (Op.ev (DaemonEvent.peer_leave id nm) now)).1.followInterval = false) ∧
    (s.connected = true → (step cfg s Op.leaveOp).1.followInterval = false) ∧
    (step cfg s (Op.ev DaemonEvent.leftEv now)).1.followInterval = false := by
  refine ⟨?_, ?_, ?_, rfl⟩
  · intro hft
    rw [step_unfollow_fst]
    unfold unfollowFn
    rw [hft]
    rfl
  · intro hft hnone
    rw [step_ev_fst]
    simp [handleEvent, hft, hnone, stopFollowS]
  · intro hconn
    rw [step_leave_fst]
    unfold leaveFn
    rw [hconn]
    rfl

/-- Witness for C6's amended theorem: the three genuine exits all clear the timer
on a concrete following state. -/
theorem follow_timer_cleared_on_exit_witness :
    s_follow.followTarget = some "David" ∧
    findPeerByName (peersDelete s_follow.peers "p1") "David" = none ∧
    s_follow.connected = true ∧
    (step DEFAULT_CONFIG s_follow Op.unfollowOp).1.followInterval = false ∧
    (step DEFAULT_CONFIG s_follow (Op.ev (DaemonEvent.peer_leave "p1" none) 0)).1.followInterval = false ∧
    (step DEFAULT_CONFIG s_follow Op.leaveOp).1.followInterval = false ∧
    (step DEFAULT_CONFIG s_follow (Op.ev DaemonEvent.leftEv 0)).1.followInterval = false := by
  have hnone : findPeerByName (peersDelete s_follow.peers "p1") "David" = none := by
    simp [findPeerByName, peersDelete, s_follow]
  refine ⟨rfl, hnone, rfl, ?_, ?_, ?_, ?_⟩
  · exact (follow_timer_cleared_on_exit DEFAULT_CONFIG s_follow "David" "p1" none 0).1 rfl
  · exact (follow_timer_cleared_on_exit DEFAULT_CONFIG s_follow "David" "p1" none 0).2.1 rfl hnone
  · exact (follow_timer_cleared_on_exit DEFAULT_CONFIG s_follow "David" "p1" none 0).2.2.1 rfl
  · exact (follow_timer_cleared_on_exit DEFAULT_CONFIG s_follow "David" "p1" none 0).2.2.2

theorem trailInv_nil : TrailInv [] :=
  ⟨by norm_num, List.chain'_nil⟩

theorem trailInv_singleton (p : Pos) : TrailInv [p] :=
  ⟨by norm_num, List.chain'_singleton p⟩

theorem trailInv_pushCrumb {l : List Pos} {p : Pos} (h : TrailInv l)
    (hsp : ∀ c, l.getLast? = some c → (5 : ℝ) < distance c p) : TrailInv (pushCrumb l p) := by
  have hchain : (l ++ [p]).Chain' (fun a b => (5 : ℝ) < distance a b) := by
    rw [List.chain'_append]
    refine ⟨h.2, List.chain'_singleton p, ?_⟩
    intro x hx y hy
    simp only [List.head?_cons, Option.mem_def, Option.some.injEq] at hy
    subst hy
    exact hsp x (Option.mem_def.mp hx)
  unfold pushCrumb
  split
  · refine ⟨?_, ?_⟩
    · rw [List.length_drop]
      have := h.1
      simp only [List.length_append, List.length_singleton]
      omega
    · rw [List.drop_one]
      exact hchain.tail
  · refine ⟨?_, hchain⟩
    rename_i hlen
    simp only [not_lt] at hlen
    exact hlen

theorem trailInv_recordCrumb {l : List Pos} (p : Pos) (h : TrailInv l) :
    TrailInv (recordCrumb l p) := by
  rw [recordCrumb]
  cases hl : l.getLast? with
  | none =>
    exact trailInv_pushCrumb h (fun c hc => by rw [hl] at hc; cases hc)
  | some c =>
    show TrailInv (if distGTb c p 5 then pushCrumb l p else l)
    split
    · rename_i hgt
      refine trailInv_pushCrumb h ?_
      intro c2 hc2
      rw [hl] at hc2
      have hcc : c = c2 := by injection hc2
      subst hcc
      have h5 := (distGTb_iff c p 5).mp hgt
      have hc5 : ((5 : ℚ) : ℝ) = (5 : ℝ) := by norm_num
      rwa [hc5] at h5
    · exact h

theorem trailInv_popReached (cfg : RamblyPluginConfig) (pos : Pos) :
    ∀ l : List Pos, TrailInv l → TrailInv (popReached cfg pos l) := by
  intro l
  induction l with
  | nil => intro h; exact h
  | cons c rest ih =>
    intro h
    cases rest with
    | nil => exact h
    | cons c2 rest' =>
      rw [popReached]
      split
      · apply ih
        constructor
        · have := h.1
          simp only [List.length_cons] at this ⊢
          omega
        · exact h.2.tail
      · exact h

theorem handleEvent_trailInv (cfg : RamblyPluginConfig) (s : RamblyState) (e : DaemonEvent)
    (now : ℤ) (h : TrailInv s.followBreadcrumbs) :
    TrailInv ((handleEvent cfg s e now).1.followBreadcrumbs) := by
  cases e with
  | joined room peerId => exact h
  | peer_join id name pos => exact h
  | peer_moved id name pos =>
    show TrailInv (peerMovedCrumbs s (peerMovedPeers s.peers id pos) id pos)
    unfold peerMovedCrumbs
    cases s.followTarget with
    | none => cases pos <;> exact h
    | some tname =>
      cases pos with
      | none => exact h
      | some p =>
        show TrailInv (match findPeerByName (peerMovedPeers s.peers id (some p)) tname with
              | some target =>
                if target.id == id then recordCrumb s.followBreadcrumbs p
                else s.followBreadcrumbs
              | none => s.followBreadcrumbs)
        cases findPeerByName (peerMovedPeers s.peers id (some p)) tname with
        | none => exact h
        | some target =>
          show TrailInv (if target.id == id then recordCrumb s.followBreadcrumbs p
                else s.followBreadcrumbs)
          split
          · exact trailInv_recordCrumb p h
          · exact h
  | peer_leave id nm =>
    show TrailInv ((match ({ s with peers := peersDelete s.peers id } : RamblyState).followTarget with
          | some tname =>
            if findPeerByName ({ s with peers := peersDelete s.peers id } : RamblyState).peers tname = none then
              stopFollowS { s with peers := peersDelete s.peers id }
            else { s with peers := peersDelete s.peers id }
          | none => { s with peers := peersDelete s.peers id }).followBreadcrumbs)
    cases s.followTarget with
    | none => exact h
    | some tname =>
      dsimp only
      split
      · exact trailInv_nil
      · exact h
  | peersEv ps => exact h
  | statusEv room pos ps => exact h
  | moved x y => exact h
  | transcript f n t p =>
    show TrailInv ((handleTranscript cfg s f n t p now).1.followBreadcrumbs)
    rw [handleTranscript_crumbs]
    exact h
  | leftEv => exact trailInv_nil
  | spoke t => exact h
  | errorEv m => exact h

theorem followTickBody_trailInv (cfg : RamblyPluginConfig) (s : RamblyState)
    (h : TrailInv s.followBreadcrumbs) :
    TrailInv ((followTickBody cfg s).1.followBreadcrumbs) := by
  unfold followTickBody
  split
  · exact h
  · split
    · exact h
    · split
      · exact h
      · split
        · exact h
        · split
          · exact trailInv_recordCrumb _ h
          · dsimp only
            split
            · exact trailInv_popReached cfg s.position _ (trailInv_recordCrumb _ h)
            · exact trailInv_popReached cfg s.position _ (trailInv_recordCrumb _ h)

theorem trailInv_step (cfg : RamblyPluginConfig) (s : RamblyState) (op : Op)
    (h : TrailInv s.followBreadcrumbs) :
    TrailInv ((step cfg s op).1.followBreadcrumbs) := by
  cases op with
  | ev e now =>
    rw [step_ev_fst]
    exact handleEvent_trailInv cfg s e now h
  | tick =>
    cases hI : s.followInterval with
    | false => simp only [step, hI]; exact h
    | true => simp only [step, hI]; exact followTickBody_trailInv cfg s h
  | joinOp room name spawnErr =>
    rw [step_join_fst]
    have hj : (joinFn cfg s room name spawnErr).1.followBreadcrumbs = s.followBreadcrumbs := by
      unfold joinFn
      split
      · rfl
      · split
        · rfl
        · cases spawnErr <;> rfl
    rw [hj]
    exact h
  | leaveOp =>
    rw [step_leave_fst]
    unfold leaveFn
    split
    · exact h
    · exact trailInv_nil
  | speakOp text =>
    rw [step_speak_fst]
    unfold speakFn
    split
    · exact h
    · exact h
  | moveOp x y =>
    rw [step_move_fst]
    unfold moveFn
    split
    · exact h
    · exact h
  | followOp name =>
    rw [step_follow_fst]
    unfold followFn
    split
    · exact h
    · split
      · exact h
      · split
        · exact trailInv_singleton _
        · exact trailInv_nil
  | unfollowOp =>
    rw [step_unfollow_fst]
    unfold unfollowFn
    split
    · exact h
    · exact trailInv_nil
  | clearTranscriptsOp => exact h

/-- C4: along every sequence of inbound events, stepper ticks and command
invocations from the initial state, the breadcrumb trail never exceeds 100 points
(oldest evicted first, by construction of `pushCrumb`) and every two consecutive
breadcrumbs are more than 5 units apart. -/
theorem breadcrumb_invariant (cfg : RamblyPluginConfig) (ops : List Op) :
    (run cfg initialState ops).followBreadcrumbs.length ≤ 100 ∧
    (run cfg initialState ops).followBreadcrumbs.Chain' (fun a b => (5 : ℝ) < distance a b) := by
  suffices hgen : ∀ (l : List Op) (s : RamblyState), TrailInv s.followBreadcrumbs →
      TrailInv ((run cfg s l).followBreadcrumbs) by
    exact hgen ops initialState trailInv_nil
  intro l
  induction l with
  | nil => intro s h; exact h
  | cons op opsl ih =>
    intro s h
    exact ih _ (trailInv_step cfg s op h)

theorem popReached_headD_eq_spec (cfg : RamblyPluginConfig) (pos : Pos) :
    ∀ (l : List Pos) (tp : Pos),
      (popReached cfg pos l).headD tp = specSelectWaypoint cfg pos l tp := by
  intro l
  induction l with
  | nil => intro tp; rfl
  | cons c rest ih =>
    intro tp
    cases rest with
    | nil => rfl
    | cons c2 rest2 =>
      rw [popReached, specSelectWaypoint]
      by_cases hc : distance pos c < (cfg.followStepSize : ℝ)
      · rw [if_pos ((distLTb_iff pos c cfg.followStepSize).mpr hc), if_pos hc]
        exact ih tp
      · rw [if_neg (fun hbt => hc ((distLTb_iff pos c cfg.followStepSize).mp hbt)),
           if_neg hc]
        rfl

/-- C5 counterexample: a stepper tick with the target's position known and
`distance(self, target) > followDistance` that emits NO move command and leaves the
position unchanged — the source's `stepDist < 1` guard returns early when the
selected waypoint is less than one unit away, which the claim does not allow. -/
theorem tick_skips_subunit_waypoint :
    (cfg_sub.followDistance : ℝ) < distance s_sub.position ⟨255, 230⟩ ∧
    findPeerByName s_sub.peers "David" = some ⟨"p1", "David", some ⟨255, 230⟩⟩ ∧
    (step cfg_sub s_sub Op.tick).2 = [] ∧
    (step cfg_sub s_sub Op.tick).1.position = s_sub.position := by
  have hpop : ∀ (cfg : RamblyPluginConfig) (pos c : Pos), popReached cfg pos [c] = [c] :=
    fun _ _ _ => rfl
  refine ⟨?_, ?_, ?_, ?_⟩
  · have h := (distGTb_iff s_sub.position ⟨255, 230⟩ (1 / 2)).mp
      (by norm_num [distGTb, distSq, s_sub])
    show ((1 / 2 : ℚ) : ℝ) < distance s_sub.position ⟨255, 230⟩
    exact h
  · simp [findPeerByName, s_sub]
  · simp only [step, followTickBody, s_sub, cfg_sub, DEFAULT_CONFIG, findPeerByName,
      recordCrumb, pushCrumb, distGTb, distLEb, distLTb, distSq]
    norm_num [hpop]
    split <;> rfl
  · simp only [step, followTickBody, s_sub, cfg_sub, DEFAULT_CONFIG, findPeerByName,
      recordCrumb, pushCrumb, distGTb, distLEb, distLTb, distSq]
    norm_num [hpop]
    split <;> rfl

/-- C5 (amended): on a stepper tick with the target's position known,
`distance(self, target) > followDistance`, AND the selected waypoint at least one
unit away (the source skips the tick entirely below one unit), the engine selects
the waypoint by discarding reached breadcrumbs from the front of the (just
recorded) trail, emits a move toward it by the smaller of `followStepSize` and the
remaining distance along the unit direction vector with coordinates rounded to
integers, and optimistically sets the local position to the emitted coordinates. -/
theorem tick_moves_toward_waypoint (cfg : RamblyPluginConfig) (s : RamblyState)
    (tname : String) (tgt : PeerInfo) (tp : Pos)
    (hint : s.followInterval = true) (hconn : s.connected = true)
    (hft : s.followTarget = some tname)
    (hfind : findPeerByName s.peers tname = some tgt)
    (hpos : tgt.position = some tp)
    (hfar : (cfg.followDistance : ℝ) < distance s.position tp)
    (hnp : (1 : ℝ) ≤ distance s.position
        (specSelectWaypoint cfg s.position (recordCrumb s.followBreadcrumbs tp) tp)) :
    (step cfg s Op.tick).2 =
      [Eff.cmd (DaemonCommand.move
        (((specStepToward cfg s.position
            (specSelectWaypoint cfg s.position (recordCrumb s.followBreadcrumbs tp) tp)).1 : ℚ))
        (((specStepToward cfg s.position
            (specSelectWaypoint cfg s.position (recordCrumb s.followBreadcrumbs tp) tp)).2 : ℚ))
        (some (atan2
          (((specSelectWaypoint cfg s.position (recordCrumb s.followBreadcrumbs tp) tp).y : ℝ)
            - (s.position.y : ℝ))
          (((specSelectWaypoint cfg s.position (recordCrumb s.followBreadcrumbs tp) tp).x : ℝ)
            - (s.position.x : ℝ))))
        (some 1))] ∧
    (step cfg s Op.tick).1.position =
      ⟨((specStepToward cfg s.position
          (specSelectWaypoint cfg s.position (recordCrumb s.followBreadcrumbs tp) tp)).1 : ℚ),
        ((specStepToward cfg s.position
          (specSelectWaypoint cfg s.position (recordCrumb s.followBreadcrumbs tp) tp)).2 : ℚ)⟩ ∧
    (step cfg s Op.tick).1.followBreadcrumbs
      = popReached cfg s.position (recordCrumb s.followBreadcrumbs tp) := by
  have hstep1 : step cfg s Op.tick = followTickBody cfg s := by
    simp only [step, hint]
  have hor : ¬(s.followTarget = none ∨ s.connected = false) := by
    rw [hft, hconn]
    simp
  have hnotLE : ¬(distLEb s.position tp cfg.followDistance = true) :=
    fun hbt => absurd ((distLEb_iff _ _ _).mp hbt) (not_le.mpr hfar)
  rw [hstep1]
  unfold followTickBody
  rw [if_neg hor, hft]
  try dsimp only
  rw [hfind]
  try dsimp only
  rw [hpos]
  try dsimp only
  rw [if_neg hnotLE]
  try dsimp only
  rw [popReached_headD_eq_spec]
  set w := specSelectWaypoint cfg s.position (recordCrumb s.followBreadcrumbs tp) tp with hw
  have hsq : ((w.x - s.position.x) ^ 2 + (w.y - s.position.y) ^ 2 : ℚ) = distSq s.position w := by
    rw [distSq]
    ring
  have hguard : ¬((w.x - s.position.x) ^ 2 + (w.y - s.position.y) ^ 2 < 1) := by
    rw [not_lt, hsq]
    by_contra hlt
    rw [not_le] at hlt
    have hb : distLTb s.position w 1 = true := by
      rw [distLTb]
      simp only [Bool.and_eq_true, decide_eq_true_eq]
      exact ⟨by norm_num, by rw [one_pow]; exact hlt⟩
    have hlt2 := (distLTb_iff s.position w 1).mp hb
    rw [Rat.cast_one] at hlt2
    exact absurd hnp (not_le.mpr hlt2)
  rw [if_neg hguard]
  have hsd : Real.sqrt ((((w.x - s.position.x) ^ 2 + (w.y - s.position.y) ^ 2 : ℚ)) : ℝ)
      = distance s.position w := by
    rw [hsq, ← distance_eq_sqrt_distSq]
  rw [hsd]
  have hdx : (((w.x - s.position.x : ℚ)) : ℝ) = (w.x : ℝ) - (s.position.x : ℝ) := by
    push_cast
    ring
  have hdy : (((w.y - s.position.y : ℚ)) : ℝ) = (w.y : ℝ) - (s.position.y : ℝ) := by
    push_cast
    ring
  rw [hdx, hdy]
  exact ⟨rfl, rfl, rfl⟩

/-- Witness for C5's amended theorem on the spec's own scenario: following David at
(300,300) from (250,230) with the default configuration. -/
theorem tick_moves_toward_waypoint_witness :
    s_follow.followInterval = true ∧
    findPeerByName s_follow.peers "David" = some ⟨"p1", "David", some ⟨300, 300⟩⟩ ∧
    (DEFAULT_CONFIG.followDistance : ℝ) < distance s_follow.position ⟨300, 300⟩ ∧
    (1 : ℝ) ≤ distance s_follow.position
      (specSelectWaypoint DEFAULT_CONFIG s_follow.position
        (recordCrumb s_follow.followBreadcrumbs ⟨300, 300⟩) ⟨300, 300⟩) ∧
    (step DEFAULT_CONFIG s_follow Op.tick).1.followBreadcrumbs
      = popReached DEFAULT_CONFIG s_follow.position
          (recordCrumb s_follow.followBreadcrumbs ⟨300, 300⟩) := by
  have hfind : findPeerByName s_follow.peers "David"
      = some ⟨"p1", "David", some ⟨300, 300⟩⟩ := by
    simp [findPeerByName, s_follow]
  have hfar : (DEFAULT_CONFIG.followDistance : ℝ) < distance s_follow.position ⟨300, 300⟩ := by
    have h := (distGTb_iff s_follow.position ⟨300, 300⟩ 40).mp
      (by norm_num [distGTb, distSq, s_follow])
    exact h
  have hrec : recordCrumb s_follow.followBreadcrumbs ⟨300, 300⟩ = [(⟨300, 300⟩ : Pos)] := by
    norm_num [recordCrumb, pushCrumb, distGTb, distSq, s_follow]
  have hwp : specSelectWaypoint DEFAULT_CONFIG s_follow.position
      (recordCrumb s_follow.followBreadcrumbs ⟨300, 300⟩) ⟨300, 300⟩ = ⟨300, 300⟩ := by
    rw [hrec]
    simp only [specSelectWaypoint]
  have hnp : (1 : ℝ) ≤ distance s_follow.position
      (specSelectWaypoint DEFAULT_CONFIG s_follow.position
        (recordCrumb s_follow.followBreadcrumbs ⟨300, 300⟩) ⟨300, 300⟩) := by
    rw [hwp]
    have h := (distGTb_iff s_follow.position ⟨300, 300⟩ 1).mp
      (by norm_num [distGTb, distSq, s_follow])
    rw [Rat.cast_one] at h
    exact le_of_lt h
  refine ⟨rfl, hfind, hfar, hnp, ?_⟩
  exact (tick_moves_toward_waypoint DEFAULT_CONFIG s_follow "David"
    ⟨"p1", "David", some ⟨300, 300⟩⟩ ⟨300, 300⟩ rfl rfl rfl hfind rfl hfar hnp).2.2
